import Mathlib

set_option maxRecDepth 100000

/-!
Shallow embedding of the Expanse_tracker_CLI repository: the dataclasses of
src/src/expanse.py and src/src/budget.py, the persistence operations of
src/src/storage_handler.py, the manager operations of
src/src/expense_manager.py and the category-limit parsing of src/src/main.py.
Python Decimal values are embedded as exact rationals; Python dicts as
association lists in insertion order.
-/

namespace ExpenseTracker

/-- Calendar timestamp as used by the tracker: only the year, month and day
components of the Python datetime matter to the embedded operations. -/
structure DateTime where
  year : Int
  month : Int
  day : Int
deriving DecidableEq, Repr

/-- Exception hierarchy of src/src/exceptions.py: ValidationError, BudgetError
and StorageError, each carrying its message. -/
inductive Err where
  | validationError (msg : String)
  | budgetError (msg : String)
  | storageError (msg : String)
deriving DecidableEq, Repr

/-- Decidable equality for results, so concrete runs of the embedded
operations can be checked by evaluation. -/
instance {ε α : Type} [DecidableEq ε] [DecidableEq α] :
    DecidableEq (Except ε α) := fun a b =>
  match a, b with
  | Except.ok x, Except.ok y => decidable_of_iff (x = y) (by simp)
  | Except.error x, Except.error y => decidable_of_iff (x = y) (by simp)
  | Except.ok _, Except.error _ => isFalse (by simp)
  | Except.error _, Except.ok _ => isFalse (by simp)

/-- Expense dataclass of src/src/expanse.py (spelled Expane there), with the
Decimal amount embedded as an exact rational. -/
structure Expense where
  description : String
  amount : ℚ
  date : DateTime
  category : String
  id : Option Nat := none
deriving DecidableEq, Repr

/-- Expane.validiate of src/src/expanse.py: the four checks in source order.
Python len(s.strip()) == 0 holds exactly when every character of s is
whitespace. -/
def Expense.validiate (e : Expense) : Except Err Unit :=
  if e.description = "" ∨ e.description.toList.all Char.isWhitespace then
    Except.error (Err.validationError "Description cannot be empty")
  else if e.description.length > 100 then
    Except.error (Err.validationError
      "Description must be less than 100 characters")
  else if e.amount ≤ 0 then
    Except.error (Err.validationError "Amount must be greater than 0")
  else if e.category = "" then
    Except.error (Err.validationError "Category is required")
  else Except.ok ()

/-- Construction of an Expane: the dataclass calls validiate from post-init,
so construction yields either a validated expense or the validation error. -/
def mkExpense (description : String) (amount : ℚ) (date : DateTime)
    (category : String) : Except Err Expense :=
  let e : Expense :=
    { description := description, amount := amount, date := date,
      category := category, id := none }
  match e.validiate with
  | Except.ok _ => Except.ok e
  | Except.error er => Except.error er

/-- Budget dataclass of src/src/budget.py; category_limits is an optional
dict, embedded as an optional association list in insertion order. -/
structure Budget where
  month : Int
  year : Int
  amount : ℚ
  category_limits : Option (List (String × ℚ)) := none
deriving DecidableEq, Repr

/-- Sum of the values of a dict, as Python sum(d.values()). -/
def sumValues (l : List (String × ℚ)) : ℚ :=
  (l.map Prod.snd).sum

/-- Budget.validate of src/src/budget.py: month range, positive amount, and
the category-limit sum check, which runs only when category_limits is truthy
(neither None nor the empty dict). -/
def Budget.validate (b : Budget) : Except Err Unit :=
  if b.month < 1 ∨ b.month > 12 then
    Except.error (Err.budgetError "Invalid month")
  else if b.amount ≤ 0 then
    Except.error (Err.budgetError "Budget amount must be greater than 0")
  else
    match b.category_limits with
    | some l =>
        if l ≠ [] ∧ sumValues l > b.amount then
          Except.error (Err.budgetError
            "Sum of category budgets exceeds total budget")
        else Except.ok ()
    | none => Except.ok ()

/-- Serialized expense record as persisted in the expenses JSON document.
Python stores the amount as str(Decimal) and parses it back with
Decimal(str(..)); that round trip is exact, so the record keeps the rational
value of the decimal string. -/
structure ExpenseRecord where
  id : Nat
  date : DateTime
  description : String
  amount : ℚ
  category : String
deriving DecidableEq, Repr

/-- Serialized budget record as persisted in the budgets JSON document;
category_limits is the string-keyed dict of decimal strings. -/
structure BudgetRecord where
  month : Int
  year : Int
  amount : ℚ
  category_limits : List (String × ℚ)
deriving DecidableEq, Repr

/-- Contents of the two JSON documents a StorageHandler reads and writes. -/
structure Storage where
  expenses : List ExpenseRecord
  budgets : List BudgetRecord
deriving DecidableEq, Repr

/-- List of ids present in the expense document, in file order. -/
def Storage.ids (s : Storage) : List Nat :=
  s.expenses.map ExpenseRecord.id

/-- StorageHandler.add_expense: loads the collection, computes
new_id = max(existing ids, default 0) + 1, appends the serialized record,
rewrites the document and returns the new id. -/
def Storage.add_expense (s : Storage) (e : Expense) : Storage × Nat :=
  let new_id := s.ids.foldr max 0 + 1
  let expense_dict : ExpenseRecord :=
    { id := new_id, date := e.date, description := e.description,
      amount := e.amount, category := e.category }
  ({ s with expenses := s.expenses ++ [expense_dict] }, new_id)

/-- StorageHandler.set_budget: builds the serialized record, then the source
assigns the list filtered of the (month, year) matches to the local name
budget instead of budgets, so the removal never takes effect and the new
record is appended to the unfiltered list. -/
def Storage.set_budget (s : Storage) (b : Budget) : Storage :=
  let budget_dict : BudgetRecord :=
    { month := b.month, year := b.year, amount := b.amount,
      category_limits := b.category_limits.getD [] }
  let _budget := s.budgets.filter
    (fun r => !(r.month == b.month && r.year == b.year))
  { s with budgets := s.budgets ++ [budget_dict] }

/-- StorageHandler.get_budget: returns the first record matching
(month, year) deserialized into a Budget, with an empty serialized
category_limits dict (falsy in Python) deserializing to None. -/
def Storage.get_budget (s : Storage) (month year : Int) : Option Budget :=
  match s.budgets.find? (fun r => r.month == month && r.year == year) with
  | some r =>
      some { month := r.month, year := r.year, amount := r.amount,
             category_limits :=
               if r.category_limits = [] then none
               else some r.category_limits }
  | none => none

/-- Modelled from the spec: StorageHandler.get_all_expenses is called by
ExpenseManager and by the tests, but its definition is absent from
src/src/storage_handler.py. Per the spec it loads and deserializes every
record, parsing the decimal amount from its string form, and returns the
expenses in file order (append order = insertion order). -/
def Storage.get_all_expenses (s : Storage) : List Expense :=
  s.expenses.map (fun r =>
    { description := r.description, amount := r.amount, date := r.date,
      category := r.category, id := some r.id })

/-- Python sum of the amounts of a list of expenses, starting from
Decimal zero. -/
def sumAmounts (l : List Expense) : ℚ :=
  (l.map Expense.amount).sum

/-- ExpenseManager.get_monthly_summary with an explicit year (the source
defaults the year to the current year when it is omitted). -/
def get_monthly_summary (s : Storage) (month year : Int) : ℚ :=
  sumAmounts (s.get_all_expenses.filter
    (fun e => e.date.month == month && e.date.year == year))

/-- ExpenseManager.get_category_summary: sums the amounts of the expenses
matching the category, filtered by month and year only when given. -/
def get_category_summary (s : Storage) (category : String)
    (month year : Option Int) : ℚ :=
  sumAmounts (s.get_all_expenses.filter (fun e =>
    e.category == category
    && month.elim true (fun m => e.date.month == m)
    && year.elim true (fun y => e.date.year == y)))

/-- Two-decimal money rendering, modelling the dollar f-string pieces
(float conversion with the .2f format) used in the warning messages: the
value is rounded to cents, floor((q * 100) + one half) written with integer
floor division so the kernel can evaluate it. -/
def fmt2 (q : ℚ) : String :=
  let cents : Int := Int.fdiv (q.num * 200 + (q.den : Int)) (2 * (q.den : Int))
  let n := cents.natAbs
  let sign := if cents < 0 then "-" else ""
  let frac := n % 100
  sign ++ toString (n / 100) ++ "." ++
    (if frac < 10 then "0" ++ toString frac else toString frac)

/-- Total-budget warning text of ExpenseManager._check_budget_warning. -/
def totalBudgetMsg (amount : ℚ) : String :=
  "Total budget of $" ++ fmt2 amount ++ " exceeded!"

/-- Category warning text of ExpenseManager._check_budget_warning. -/
def categoryBudgetMsg (category : String) (limit : ℚ) : String :=
  "Category \x27" ++ category ++ "\x27 budget of $" ++ fmt2 limit

/-- ExpenseManager._check_budget_warning evaluated on the storage state that
already contains the just-added expense, as the manager calls it right after
persisting. -/
def check_budget_warning (s : Storage) (e : Expense) : Option String :=
  match s.get_budget e.date.month e.date.year with
  | none => none
  | some budget =>
      let monthly_total := get_monthly_summary s e.date.month e.date.year
      let category_total :=
        get_category_summary s e.category (some e.date.month)
          (some e.date.year)
      let warnings :=
        (if monthly_total > budget.amount then [totalBudgetMsg budget.amount]
         else [])
        ++
        (match budget.category_limits with
         | some cl =>
             if cl ≠ [] then
               match cl.lookup e.category with
               | some category_limit =>
                   if category_total > category_limit then
                     [categoryBudgetMsg e.category category_limit]
                   else []
               | none => []
             else []
         | none => [])
      if warnings ≠ [] then some (String.intercalate " " warnings) else none

/-- ExpenseManager.add_expense: builds the Expense (validated in post-init;
the date argument stands for datetime.now()), persists it through storage,
then computes the budget warning against the updated storage, returning the
assigned id and the optional warning. -/
def manager_add_expense (s : Storage) (description : String) (amount : ℚ)
    (date : DateTime) (category : String) :
    Except Err (Storage × Nat × Option String) :=
  match mkExpense description amount date category with
  | Except.error er => Except.error er
  | Except.ok expense =>
      let r := s.add_expense expense
      Except.ok (r.1, r.2, check_budget_warning r.1 expense)

/-- ExpenseManager.set_budget: the comprehension over (category_limits or an
empty dict) always produces a dict, so the Budget is built with some mapping,
possibly empty; it is validated and then persisted. -/
def manager_set_budget (s : Storage) (month year : Int) (amount : ℚ)
    (category_limits : Option (List (String × ℚ))) : Except Err Storage :=
  let budget : Budget :=
    { month := month, year := year, amount := amount,
      category_limits := some (category_limits.getD []) }
  match budget.validate with
  | Except.error er => Except.error er
  | Except.ok _ => Except.ok (s.set_budget budget)

/-- Files the storage initializer touches: the parent directory flag and the
two JSON documents, none when the file does not exist yet. -/
structure FileSystem where
  dirExists : Bool
  expensesFile : Option (List ExpenseRecord)
  budgetsFile : Option (List BudgetRecord)
deriving DecidableEq, Repr

/-- StorageHandler._init_storage: makes the parent directory, then creates
each missing document. The source spells the first save call _save_expanses
while the method defined on the class is _save_expenses, so whenever the
expenses document is missing the call raises AttributeError, which the
handler wraps as a StorageError before either empty document is written. -/
def initStorage (fs : FileSystem) : Except Err FileSystem :=
  let fs1 : FileSystem := { fs with dirExists := true }
  match fs1.expensesFile with
  | none =>
      Except.error (Err.storageError
        "Failed to initalize storage: AttributeError")
  | some _ =>
      match fs1.budgetsFile with
      | none => Except.ok { fs1 with budgetsFile := some [] }
      | some _ => Except.ok fs1

/-- Split of a character list at every occurrence of a separator, keeping
empty fields, as Python str.split with a one-character separator. -/
def splitOnChar (sep : Char) : List Char → List (List Char)
  | [] => [[]]
  | c :: rest =>
      let r := splitOnChar sep rest
      if c = sep then [] :: r
      else
        match r with
        | h :: t => (c :: h) :: t
        | [] => [[c]]

/-- Numeric value of a digit string, most significant digit first. -/
def digitsVal (cs : List Char) : Nat :=
  cs.foldl (fun n c => n * 10 + (c.toNat - 48)) 0

/-- Numeric string to an exact value, modelling Python float() on the plain
decimal literals used for category-limit amounts: optional sign, integer
part, optional fractional part; none when the text is not such a numeral. -/
def parseAmount (s : String) : Option ℚ :=
  let cs := s.toList
  let sign : ℚ := if cs.head? = some '-' then -1 else 1
  let body :=
    if cs.head? = some '-' ∨ cs.head? = some '+' then cs.drop 1 else cs
  match splitOnChar '.' body with
  | [i] =>
      if i ≠ [] ∧ i.all Char.isDigit then
        some (sign * (digitsVal i : ℚ))
      else none
  | [i, f] =>
      if (i ≠ [] ∨ f ≠ []) ∧ i.all Char.isDigit ∧ f.all Char.isDigit then
        some (sign * ((digitsVal i : ℚ)
          + (digitsVal f : ℚ) / (10 : ℚ) ^ f.length))
      else none
  | _ => none

/-- Python dict assignment d[k] = v: updates the value in place when the key
is present, otherwise appends the binding. -/
def dictInsert (l : List (String × ℚ)) (k : String) (v : ℚ) :
    List (String × ℚ) :=
  if l.any (fun p => p.fst == k) then
    l.map (fun p => if p.fst == k then (k, v) else p)
  else l ++ [(k, v)]

/-- Error raised by parse_category_limits on any malformed input. -/
def limitsFormatErr : Err :=
  Err.validationError ("Invalid category limits format. "
    ++ "Use \x27category1:amount1,category2:amount2\x27")

/-- Loop of the dict comprehension in parse_category_limits of
src/src/main.py: each comma-separated field must split on the colon into
exactly a (category, amount) pair and the amount must parse as a number; any
failure surfaces as the ValidationError. -/
def parsePairs : List (String × ℚ) → List String →
    Except Err (List (String × ℚ))
  | acc, [] => Except.ok acc
  | acc, pair :: rest =>
      match (splitOnChar ':' pair.toList).map (fun cs => String.mk cs) with
      | [category, amount] =>
          match parseAmount amount with
          | some v => parsePairs (dictInsert acc category v) rest
          | none => Except.error limitsFormatErr
      | _ => Except.error limitsFormatErr

/-- parse_category_limits of src/src/main.py: the empty string gives the
empty dict, otherwise the comma-separated fields are parsed in order. -/
def parse_category_limits (limits_str : String) :
    Except Err (List (String × ℚ)) :=
  if limits_str = "" then Except.ok []
  else parsePairs []
    ((splitOnChar ',' limits_str.toList).map (fun cs => String.mk cs))

end ExpenseTracker

namespace ExpenseTracker

/-- Every member of a list of naturals is bounded by the running maximum that
add_expense computes. -/
theorem mem_le_foldr_max {l : List Nat} {x : Nat} (h : x ∈ l) :
    x ≤ l.foldr max 0 := by
  induction l with
  | nil => cases h
  | cons a t ih =>
      rcases List.mem_cons.mp h with rfl | hmem
      · exact le_max_left _ _
      · exact le_trans (ih hmem) (le_max_right _ _)

/-- Appending one element folds into a final max. -/
theorem foldr_max_append (l : List Nat) (a : Nat) :
    (l ++ [a]).foldr max 0 = max (l.foldr max 0) a := by
  induction l with
  | nil => simp
  | cons b t ih =>
      simp only [List.cons_append, List.foldr_cons, ih]
      rw [max_assoc]

/-- C1: the spec requires setBudget to be an upsert keyed by (month, year),
leaving exactly one record with the latest values; the code instead assigns
the filtered budgets list to the local name budget (shadowing the argument)
rather than to budgets, contradicting the removal comment directly above the
line, so a second setBudget for (1, 2024) leaves two records and a subsequent
getBudget returns the first, stale one. -/
theorem setBudget_twice_keeps_stale_record :
    (((Storage.mk [] []).set_budget
        ⟨1, 2024, 100, some [("groceries", 50)]⟩).set_budget
        ⟨1, 2024, 200, some [("food", 80)]⟩).budgets.length = 2 ∧
    (((Storage.mk [] []).set_budget
        ⟨1, 2024, 100, some [("groceries", 50)]⟩).set_budget
        ⟨1, 2024, 200, some [("food", 80)]⟩).get_budget 1 2024
      = some ⟨1, 2024, 100, some [("groceries", 50)]⟩ := by
  exact ⟨rfl, by decide⟩

/-- C3: on fresh paths (neither document exists) storage initialization does
not create the empty documents; the call to the misspelled _save_expanses
raises, and the handler surfaces the wrapped StorageError, whether or not
the budgets document already exists. -/
theorem initStorage_fresh_paths_error :
    initStorage ⟨false, none, none⟩
      = Except.error
          (Err.storageError "Failed to initalize storage: AttributeError") ∧
    initStorage ⟨false, none, some []⟩
      = Except.error
          (Err.storageError "Failed to initalize storage: AttributeError") ∧
    (∀ es bs, initStorage ⟨true, some es, some bs⟩
      = Except.ok ⟨true, some es, some bs⟩) :=
  ⟨rfl, rfl, fun _ _ => rfl⟩

/-- C4: addExpense followed by getAllExpenses yields the previous collection,
in file order, extended with a record carrying the added expense's fields and
the newly assigned id. -/
theorem addExpense_getAllExpenses_roundtrip (s : Storage) (e : Expense) :
    (s.add_expense e).1.get_all_expenses
      = s.get_all_expenses
        ++ [{ description := e.description, amount := e.amount,
              date := e.date, category := e.category,
              id := some (s.add_expense e).2 }] := by
  simp [Storage.add_expense, Storage.get_all_expenses]

/-- C5: add_expense assigns id max(existing ids, default 0) + 1 and returns
it; the new id is strictly above every stored id (so never collides, even
with gaps), a second add returns the successor of the first id, and on the
empty collection the first id is 1. -/
theorem addExpense_id_assignment (s : Storage) (e1 e2 : Expense) :
    (s.add_expense e1).2 = s.ids.foldr max 0 + 1 ∧
    (∀ r ∈ s.expenses, r.id < (s.add_expense e1).2) ∧
    ((s.add_expense e1).1.add_expense e2).2 = (s.add_expense e1).2 + 1 ∧
    ((Storage.mk [] []).add_expense e1).2 = 1 := by
  refine ⟨rfl, ?_, ?_, rfl⟩
  · intro r hr
    have hmem : r.id ∈ s.ids := List.mem_map_of_mem ExpenseRecord.id hr
    exact Nat.lt_succ_of_le (mem_le_foldr_max hmem)
  · have hids : (s.add_expense e1).1.ids
        = s.ids ++ [s.ids.foldr max 0 + 1] := by
      simp [Storage.add_expense, Storage.ids]
    show (s.add_expense e1).1.ids.foldr max 0 + 1 = (s.add_expense e1).2 + 1
    rw [hids, foldr_max_append, max_eq_right (Nat.le_succ _)]
    rfl

end ExpenseTracker

namespace ExpenseTracker

/-- Characterization of Expane.validiate: it fails, always with a
ValidationError, exactly on the four documented conditions. -/
theorem validiate_error_iff (e : Expense) :
    (∃ msg, e.validiate = Except.error (Err.validationError msg)) ↔
      (e.description = "" ∨ e.description.toList.all Char.isWhitespace = true
        ∨ 100 < e.description.length ∨ e.amount ≤ 0 ∨ e.category = "") := by
  unfold Expense.validiate
  split_ifs with h1 h2 h3 h4
  · exact iff_of_true ⟨"Description cannot be empty", rfl⟩
      (h1.elim Or.inl (fun h => Or.inr (Or.inl h)))
  · exact iff_of_true ⟨"Description must be less than 100 characters", rfl⟩
      (Or.inr (Or.inr (Or.inl h2)))
  · exact iff_of_true ⟨"Amount must be greater than 0", rfl⟩
      (Or.inr (Or.inr (Or.inr (Or.inl h3))))
  · exact iff_of_true ⟨"Category is required", rfl⟩
      (Or.inr (Or.inr (Or.inr (Or.inr h4))))
  · refine iff_of_false ?_ ?_
    · rintro ⟨msg, hmsg⟩
      cases hmsg
    · rintro (h | h | h | h | h)
      · exact h1 (Or.inl h)
      · exact h1 (Or.inr h)
      · exact h2 h
      · exact h3 h
      · exact h4 h

/-- Constructing an Expense fails exactly when validiate fails, with the same
error. -/
theorem mkExpense_error_iff (d : String) (a : ℚ) (dt : DateTime) (c : String)
    (er : Err) :
    mkExpense d a dt c = Except.error er ↔
      Expense.validiate ⟨d, a, dt, c, none⟩ = Except.error er := by
  unfold mkExpense
  cases hv : Expense.validiate ⟨d, a, dt, c, none⟩ with
  | ok u => simp [hv]
  | error er2 => simp [hv]

/-- C7: constructing an Expense fails with a ValidationError exactly when the
description is empty or whitespace-only, or longer than 100 characters, or
the amount is nonpositive, or the category is empty; and a failed
construction propagates out of the manager before any storage operation, so
no invalid expense is ever persisted. -/
theorem expense_validation_characterization (d : String) (a : ℚ)
    (dt : DateTime) (c : String) (s : Storage) :
    ((∃ msg, mkExpense d a dt c = Except.error (Err.validationError msg)) ↔
      (d = "" ∨ d.toList.all Char.isWhitespace = true ∨ 100 < d.length
        ∨ a ≤ 0 ∨ c = "")) ∧
    (∀ er, mkExpense d a dt c = Except.error er →
      manager_add_expense s d a dt c = Except.error er) := by
  constructor
  · have h1 := exists_congr (fun msg =>
      mkExpense_error_iff d a dt c (Err.validationError msg))
    rw [h1]
    exact validiate_error_iff ⟨d, a, dt, c, none⟩
  · intro er her
    unfold manager_add_expense
    rw [her]

/-- C8: Budget.validate fails with a BudgetError exactly when the month lies
outside 1..12, or the amount is nonpositive, or the sum of the category
limits strictly exceeds the amount (with None limits read as the empty
mapping, whose sum is zero). -/
theorem budget_validate_characterization (b : Budget) :
    (∃ msg, b.validate = Except.error (Err.budgetError msg)) ↔
      (b.month < 1 ∨ 12 < b.month ∨ b.amount ≤ 0
        ∨ b.amount < sumValues (b.category_limits.getD [])) := by
  constructor
  · rintro ⟨msg, hmsg⟩
    by_contra hcon
    push_neg at hcon
    obtain ⟨hA1, hA2, hB, hD⟩ := hcon
    have hok : b.validate = Except.ok () := by
      unfold Budget.validate
      rw [if_neg (fun h => h.elim
            (fun h => absurd h (not_lt.mpr hA1))
            (fun h => absurd h (not_lt.mpr hA2))),
          if_neg (not_le.mpr hB)]
      cases hcl : b.category_limits with
      | none => rfl
      | some l =>
          have hle : sumValues l ≤ b.amount := by
            rw [hcl] at hD
            simpa using hD
          show (if l ≠ [] ∧ sumValues l > b.amount then
              Except.error (Err.budgetError
                "Sum of category budgets exceeds total budget")
            else Except.ok ()) = Except.ok ()
          rw [if_neg (fun hh => absurd hh.2 (not_lt.mpr hle))]
    rw [hok] at hmsg
    cases hmsg
  · intro hcond
    by_cases hA : b.month < 1 ∨ b.month > 12
    · exact ⟨"Invalid month", by unfold Budget.validate; rw [if_pos hA]⟩
    · by_cases hB : b.amount ≤ 0
      · exact ⟨"Budget amount must be greater than 0",
          by unfold Budget.validate; rw [if_neg hA, if_pos hB]⟩
      · have hsum : b.amount < sumValues (b.category_limits.getD []) := by
          rcases hcond with h | h | h | h
          · exact absurd (Or.inl h) hA
          · exact absurd (Or.inr h) hA
          · exact absurd h hB
          · exact h
        cases hcl : b.category_limits with
        | none =>
            exfalso
            rw [hcl] at hsum
            simp [sumValues] at hsum
            exact hB (le_of_lt hsum)
        | some l =>
            have hl : b.amount < sumValues l := by
              rw [hcl] at hsum
              simpa using hsum
            have hne : l ≠ [] := by
              intro hnil
              rw [hnil] at hl
              simp [sumValues] at hl
              exact hB (le_of_lt hl)
            refine ⟨"Sum of category budgets exceeds total budget", ?_⟩
            unfold Budget.validate
            rw [if_neg hA, if_neg hB, hcl]
            show (if l ≠ [] ∧ sumValues l > b.amount then
                Except.error (Err.budgetError
                  "Sum of category budgets exceeds total budget")
              else Except.ok ())
              = Except.error (Err.budgetError
                  "Sum of category budgets exceeds total budget")
            rw [if_pos ⟨hne, hl⟩]

end ExpenseTracker

namespace ExpenseTracker

/-- Any comma field that does not split on the colon into exactly two parts
makes the whole parse fail with the ValidationError, whatever was
accumulated and whatever else the list holds. -/
theorem parsePairs_error_of_bad_pair (l : List String) :
    ∀ acc : List (String × ℚ),
      (∃ p ∈ l,
        ((splitOnChar ':' p.toList).map (fun cs => String.mk cs)).length ≠ 2) →
      parsePairs acc l = Except.error limitsFormatErr := by
  induction l with
  | nil =>
      intro acc h
      simp at h
  | cons p rest ih =>
      intro acc h
      unfold parsePairs
      rcases hsp : (splitOnChar ':' p.toList).map (fun cs => String.mk cs)
        with _ | ⟨c1, _ | ⟨c2, _ | ⟨c3, t⟩⟩⟩
      · rfl
      · rfl
      · -- the head pair is well-formed; the bad pair lies in the rest
        rcases h with ⟨q, hq, hlen⟩
        rcases List.mem_cons.mp hq with rfl | hmem
        · rw [hsp] at hlen
          simp at hlen
        · show (match parseAmount c2 with
              | some v => parsePairs (dictInsert acc c1 v) rest
              | none => Except.error limitsFormatErr)
              = Except.error limitsFormatErr
          cases hpa : parseAmount c2 with
          | none => rfl
          | some v => exact ih (dictInsert acc c1 v) ⟨q, hmem, hlen⟩
      · rfl

/-- C9: parseCategoryLimits maps the empty string to the empty mapping and a
well-formed list to the corresponding name-to-number mapping, and any comma
field without exactly one colon makes it fail with ValidationError. -/
theorem parseCategoryLimits_spec :
    parse_category_limits "" = Except.ok [] ∧
    parse_category_limits "a:1,b:2" = Except.ok [("a", 1), ("b", 2)] ∧
    parse_category_limits "a:b:5" = Except.error limitsFormatErr ∧
    ∀ limits_str : String, limits_str ≠ "" →
      (∃ p ∈ (splitOnChar ',' limits_str.toList).map (fun cs => String.mk cs),
        ((splitOnChar ':' p.toList).map (fun cs => String.mk cs)).length ≠ 2) →
      parse_category_limits limits_str = Except.error limitsFormatErr := by
  refine ⟨by decide, by with_unfolding_all decide, by decide, ?_⟩
  intro limits_str hne hbad
  unfold parse_category_limits
  rw [if_neg hne]
  exact parsePairs_error_of_bad_pair _ [] hbad

end ExpenseTracker

namespace ExpenseTracker

/-- A nonemptiness-guarded if flipped into an emptiness-guarded one. -/
theorem ite_ne_nil_flip {α β : Type} [DecidableEq α] (l : List α) (x y : β) :
    (if l ≠ [] then x else y) = (if l = [] then y else x) := by
  by_cases h : l = [] <;> simp [h]

/-- The category branch of the warning check: guarding on a truthy dict and
membership is the same as looking the category up in the dict read back with
an empty default. -/
theorem warn_category_branch_eq (o : Option (List (String × ℚ)))
    (c : String) (ct : ℚ) :
    (match o with
     | some cl =>
         if cl ≠ [] then
           match cl.lookup c with
           | some lim => if ct > lim then [categoryBudgetMsg c lim] else []
           | none => []
         else []
     | none => []) =
    (match (o.getD []).lookup c with
     | some lim => if ct > lim then [categoryBudgetMsg c lim] else []
     | none => []) := by
  cases o with
  | none => simp [List.lookup]
  | some cl =>
      by_cases hnil : cl = []
      · subst hnil
        simp [List.lookup]
      · simp [hnil]

/-- The warning check, rephrased: no budget for the period means no warning;
otherwise the total message fires exactly on a strict overrun of the budget
amount, the category message exactly on a strict overrun of a limit the
budget defines for the category, and the triggered messages are joined with
one space, the empty message list collapsing to no warning. -/
theorem check_budget_warning_eq (s : Storage) (e : Expense) :
    check_budget_warning s e =
      (match s.get_budget e.date.month e.date.year with
       | none => none
       | some budget =>
           let monthly_total := get_monthly_summary s e.date.month e.date.year
           let category_total :=
             get_category_summary s e.category (some e.date.month)
               (some e.date.year)
           let msgs :=
             (if monthly_total > budget.amount
              then [totalBudgetMsg budget.amount] else [])
             ++ (match (budget.category_limits.getD []).lookup e.category with
                 | some lim =>
                     if category_total > lim
                     then [categoryBudgetMsg e.category lim] else []
                 | none => [])
           if msgs = [] then none
           else some (String.intercalate " " msgs)) := by
  unfold check_budget_warning
  cases hb : s.get_budget e.date.month e.date.year with
  | none => rfl
  | some budget =>
      show (if ((if get_monthly_summary s e.date.month e.date.year
              > budget.amount then [totalBudgetMsg budget.amount] else [])
            ++ (match budget.category_limits with
                | some cl =>
                    if cl ≠ [] then
                      match cl.lookup e.category with
                      | some lim =>
                          if get_category_summary s e.category
                              (some e.date.month) (some e.date.year) > lim
                          then [categoryBudgetMsg e.category lim] else []
                      | none => []
                    else []
                | none => [])) ≠ [] then _ else _) = _
      rw [warn_category_branch_eq budget.category_limits e.category
        (get_category_summary s e.category (some e.date.month)
          (some e.date.year))]
      rw [ite_ne_nil_flip]

/-- C2: for an expense accepted by Manager.addExpense, the returned warning
is absent when no budget exists for the expense's (month, year); otherwise
it is exactly the space-joined list holding the total-budget message when
the monthly total (including the just-added expense) strictly exceeds the
budget amount, and the category message when the budget defines a limit for
the expense's category and the category total strictly exceeds it, with the
empty list yielding no warning. -/
theorem addExpense_warning_characterization (s : Storage) (d : String)
    (a : ℚ) (dt : DateTime) (c : String) (s2 : Storage) (i : Nat)
    (w : Option String)
    (h : manager_add_expense s d a dt c = Except.ok (s2, i, w)) :
    w = (match s2.get_budget dt.month dt.year with
      | none => none
      | some budget =>
          let monthly_total := get_monthly_summary s2 dt.month dt.year
          let category_total :=
            get_category_summary s2 c (some dt.month) (some dt.year)
          let msgs :=
            (if monthly_total > budget.amount
             then [totalBudgetMsg budget.amount] else [])
            ++ (match (budget.category_limits.getD []).lookup c with
                | some lim =>
                    if category_total > lim then [categoryBudgetMsg c lim]
                    else []
                | none => [])
          if msgs = [] then none
          else some (String.intercalate " " msgs)) := by
  unfold manager_add_expense at h
  cases hmk : mkExpense d a dt c with
  | error er =>
      rw [hmk] at h
      cases h
  | ok e =>
      have he : e = ⟨d, a, dt, c, none⟩ := by
        unfold mkExpense at hmk
        cases hv : Expense.validiate ⟨d, a, dt, c, none⟩ with
        | ok u =>
            simp only [hv, Except.ok.injEq] at hmk
            exact hmk.symm
        | error er => simp [hv] at hmk
      subst he
      rw [hmk] at h
      simp only [Except.ok.injEq, Prod.mk.injEq] at h
      obtain ⟨h1, _h2, h3⟩ := h
      subst h1
      subst h3
      rw [check_budget_warning_eq]

end ExpenseTracker

namespace ExpenseTracker

/-- Sample storage for exercising the warning path: one prior groceries
expense of 90 in January 2024 and a budget of 100 with a groceries limit of
50 for that month. -/
def warnPre : Storage :=
  { expenses := [⟨1, ⟨2024, 1, 5⟩, "Previous expense", 90, "groceries"⟩],
    budgets := [⟨1, 2024, 100, [("groceries", 50)]⟩] }

/-- The storage state after adding a 20 groceries expense to warnPre. -/
def warnPost : Storage :=
  { expenses := [⟨1, ⟨2024, 1, 5⟩, "Previous expense", 90, "groceries"⟩,
      ⟨2, ⟨2024, 1, 10⟩, "Test expense", 20, "groceries"⟩],
    budgets := [⟨1, 2024, 100, [("groceries", 50)]⟩] }

/-- Witness for C2 at the spec scenario: budget 100 with groceries limit 50,
prior expense 90, adding 20 triggers both messages, joined by one space. -/
theorem addExpense_warning_characterization_witness :
    (some ("Total budget of $100.00 exceeded! "
        ++ "Category \x27groceries\x27 budget of $50.00") : Option String)
      = (match warnPost.get_budget 1 2024 with
        | none => none
        | some budget =>
            let monthly_total := get_monthly_summary warnPost 1 2024
            let category_total :=
              get_category_summary warnPost "groceries" (some 1) (some 2024)
            let msgs :=
              (if monthly_total > budget.amount
               then [totalBudgetMsg budget.amount] else [])
              ++ (match (budget.category_limits.getD []).lookup "groceries"
                  with
                  | some lim =>
                      if category_total > lim
                      then [categoryBudgetMsg "groceries" lim] else []
                  | none => [])
            if msgs = [] then none
            else some (String.intercalate " " msgs)) :=
  addExpense_warning_characterization warnPre "Test expense" 20
    ⟨2024, 1, 10⟩ "groceries" warnPost 2
    (some ("Total budget of $100.00 exceeded! "
        ++ "Category \x27groceries\x27 budget of $50.00"))
    (by with_unfolding_all decide)

/-- A search skips a prefix in which every element fails the predicate. -/
theorem find_skip_front {α : Type} (p : α → Bool) (l l2 : List α)
    (h : l.all (fun x => !(p x)) = true) :
    (l ++ l2).find? p = l2.find? p := by
  induction l with
  | nil => rfl
  | cons a t ih =>
      simp only [List.all_cons, Bool.and_eq_true, Bool.not_eq_true'] at h
      obtain ⟨ha, ht⟩ := h
      simp only [List.cons_append, List.find?_cons, ha, cond_false]
      exact ih (by simpa using ht)

/-- C10 counterexample: with a record already stored for (1, 2024), setting
a budget with no category limits through the manager appends a second record
with an empty mapping, but getBudget still returns the stale first record,
whose category_limits is not None. -/
theorem managerSetBudget_empty_limits_stale_readback :
    manager_set_budget ⟨[], [⟨1, 2024, 100, [("a", 50)]⟩]⟩ 1 2024 200 none
      = Except.ok ⟨[], [⟨1, 2024, 100, [("a", 50)]⟩, ⟨1, 2024, 200, []⟩]⟩ ∧
    (⟨[], [⟨1, 2024, 100, [("a", 50)]⟩, ⟨1, 2024, 200, []⟩]⟩
        : Storage).get_budget 1 2024
      = some ⟨1, 2024, 100, some [("a", 50)]⟩ :=
  ⟨by with_unfolding_all decide, by decide⟩

/-- Validation does not distinguish an empty category-limit mapping from an
absent one: both are falsy in the guard of the sum check. -/
theorem validate_empty_limits (month year : Int) (amount : ℚ) :
    Budget.validate ⟨month, year, amount, some []⟩
      = Budget.validate ⟨month, year, amount, none⟩ := by
  simp [Budget.validate]

/-- C10 amended: a budget set through the manager with absent or empty
category limits is persisted with an empty mapping, and, when no record for
the (month, year) key already exists, getBudget deserializes it back with
category_limits None; validation treats the empty mapping exactly like None,
and the warning check only consumes budgets through getBudget, so it sees
None as well. -/
theorem managerSetBudget_empty_limits_roundtrip (s : Storage)
    (month year : Int) (amount : ℚ) (cl : Option (List (String × ℚ)))
    (s2 : Storage)
    (hcl : cl = none ∨ cl = some [])
    (hfresh : s.budgets.all
      (fun r => !(r.month == month && r.year == year)) = true)
    (h : manager_set_budget s month year amount cl = Except.ok s2) :
    s2.budgets = s.budgets ++ [⟨month, year, amount, []⟩] ∧
    s2.get_budget month year = some ⟨month, year, amount, none⟩ ∧
    Budget.validate ⟨month, year, amount, some []⟩
      = Budget.validate ⟨month, year, amount, none⟩ := by
  have hgetD : cl.getD [] = [] := by
    rcases hcl with rfl | rfl <;> rfl
  unfold manager_set_budget at h
  cases hv : Budget.validate
      ⟨month, year, amount, some (cl.getD [])⟩ with
  | error er => simp [hv] at h
  | ok u =>
      simp only [hv, Except.ok.injEq] at h
      subst h
      refine ⟨?_, ?_, validate_empty_limits month year amount⟩
      · simp [Storage.set_budget, hgetD]
      · show Storage.get_budget
            (Storage.set_budget s ⟨month, year, amount, some (cl.getD [])⟩)
            month year = some ⟨month, year, amount, none⟩
        unfold Storage.set_budget Storage.get_budget
        simp only [hgetD]
        rw [find_skip_front _ _ _ hfresh]
        simp [List.find?]

/-- Witness for the amended C10 on the empty storage. -/
theorem managerSetBudget_empty_limits_roundtrip_witness :
    (⟨[], [⟨1, 2024, 200, []⟩]⟩ : Storage).budgets
        = (⟨[], []⟩ : Storage).budgets ++ [⟨1, 2024, 200, []⟩] ∧
    (⟨[], [⟨1, 2024, 200, []⟩]⟩ : Storage).get_budget 1 2024
        = some ⟨1, 2024, 200, none⟩ ∧
    Budget.validate ⟨1, 2024, 200, some []⟩
        = Budget.validate ⟨1, 2024, 200, none⟩ :=
  managerSetBudget_empty_limits_roundtrip ⟨[], []⟩ 1 2024 200 none
    ⟨[], [⟨1, 2024, 200, []⟩]⟩ (Or.inl rfl) (by decide)
    (by with_unfolding_all decide)

end ExpenseTracker
